import Mathlib

/-!
# Verification of the PDF text-extraction service

Shallow embedding of `src/pdf-service/main.py`, a single-endpoint HTTP
service whose handler `extract_text` delegates PDF parsing to an external
library, concatenates per-page text with a two-newline separator, falls
back to a placeholder message for image-based PDFs, and converts any
parse failure into a structured failure payload.

The external parsing library (pdfplumber) is out of scope of the
repository; per the spec it is a black box with contract
`open(bytes) -> pages`, `Page.extract_text() -> optional string`, failing
with a parse error on malformed input.  It is modelled here as an
abstract function producing either an error message or an ordered list
of per-page extraction outcomes (each page either raises an error or
yields an optional string).
-/

/-- The structured response of the handler: `{"success": true, "text": t}`
or `{"success": false, "error": e}`. -/
inductive ExtractionResult where
  | Success (text : String)
  | Failure (error : String)
deriving DecidableEq, Repr

/-- The characters Python's `str.strip()` removes: the full CPython
whitespace set (`Py_UNICODE_ISSPACE`), i.e. `\t`-`\r`, `\x1c`-`\x1f`,
space, `\x85` (next line), `\xa0` (no-break space), and the Unicode
space characters U+1680, U+2000-U+200A, U+2028, U+2029, U+202F,
U+205F and U+3000. -/
def isPySpace (c : Char) : Bool :=
  (0x09 ≤ c.toNat && c.toNat ≤ 0x0D) || (0x1C ≤ c.toNat && c.toNat ≤ 0x1F) ||
    c.toNat = 0x20 || c.toNat = 0x85 || c.toNat = 0xA0 || c.toNat = 0x1680 ||
    (0x2000 ≤ c.toNat && c.toNat ≤ 0x200A) || c.toNat = 0x2028 ||
    c.toNat = 0x2029 || c.toNat = 0x202F || c.toNat = 0x205F || c.toNat = 0x3000

/-- Remove leading and trailing whitespace from a character list. -/
def stripList (l : List Char) : List Char :=
  ((l.dropWhile isPySpace).reverse.dropWhile isPySpace).reverse

/-- Embedding of Python `str.strip()`. -/
def pyStrip (s : String) : String :=
  String.mk (stripList s.data)

/-- The outcome of one page's `page.extract_text()` call: it can raise an
error (string of the exception), or return `None`, or return a string. -/
def PageOutcome := Except String (Option String)

/-- The page loop of the handler (`main.py` lines 29-33): walk the pages in
order; a raising page aborts the whole computation (the exception escapes
the loop); a page with `None` or empty text contributes nothing; otherwise
the page text followed by two newline characters is appended to the
accumulator. -/
def extractPages : List (Except String (Option String)) → String → Except String String
  | [], acc => Except.ok acc
  | Except.error e :: _, _ => Except.error e
  | Except.ok none :: ps, acc => extractPages ps acc
  | Except.ok (some t) :: ps, acc =>
      extractPages ps (if t = "" then acc else acc ++ t ++ "\n\n")

/-- Round `num / den` to the nearest integer, ties to even — the rounding
used by Python float formatting `:.2f` (the quotient `len/1024` is exactly
representable in binary floating point for any realistic length). -/
def roundHalfEven (num den : Nat) : Nat :=
  if 2 * (num % den) < den then num / den
  else if den < 2 * (num % den) then num / den + 1
  else if (num / den) % 2 = 0 then num / den else num / den + 1

/-- The size in hundredths of a kibibyte: `byteLength/1024` rounded to two
decimal places, returned as an integer number of hundredths. -/
def sizeHundredths (byteLength : Nat) : Nat :=
  roundHalfEven (25 * byteLength) 256

/-- Render a number below 100 with two digits. -/
def pad2 (k : Nat) : String :=
  if k < 10 then "0" ++ toString k else toString k

/-- Embedding of the Python format expression `f"{len(contents)/1024:.2f}"`. -/
def formatKB (byteLength : Nat) : String :=
  toString (sizeHundredths byteLength / 100) ++ "." ++ pad2 (sizeHundredths byteLength % 100)

/-- The placeholder message returned when no text was extracted
(`main.py` line 40). -/
def placeholder (filename : String) (byteLength : Nat) : String :=
  "PDF Document: " ++ filename ++ "\n\nFile Size: " ++ formatKB byteLength ++
    "KB\n\nThis PDF appears to be image-based. Text extraction requires OCR processing."

/-- The handler body (`main.py` lines 24-44), given the outcome of opening
the PDF: a failure of `pdfplumber.open` itself, or the list of pages.  Any
error is caught by the `except` clause and becomes a `Failure` carrying
`str(e)`; otherwise the accumulated text is returned when its stripped copy
is non-empty, and the placeholder otherwise. -/
def extract_text (parseResult : Except String (List (Except String (Option String))))
    (filename : String) (byteLength : Nat) : ExtractionResult :=
  match parseResult with
  | Except.error e => ExtractionResult.Failure e
  | Except.ok pages =>
      match extractPages pages "" with
      | Except.error e => ExtractionResult.Failure e
      | Except.ok text =>
          if pyStrip text = "" then
            ExtractionResult.Success (placeholder filename byteLength)
          else
            ExtractionResult.Success text

/-- Modelled from the spec: the external parsing capability is a pure
function of the input bytes (`extract(bytes) -> ordered sequence of
per-page text`, failing with a parse error on malformed input).  The
handler applies it to the uploaded bytes and post-processes the outcome;
the byte length feeds the placeholder's size field. -/
def handle (parseFn : List Nat → Except String (List (Except String (Option String))))
    (fileBytes : List Nat) (filename : String) : ExtractionResult :=
  extract_text (parseFn fileBytes) filename fileBytes.length

/-- The concatenation described by the spec: each page's text in document
order, each followed by exactly two newline characters, pages with
empty or absent text contributing nothing. -/
def concatPages : List (Option String) → String
  | [] => ""
  | none :: ps => concatPages ps
  | some t :: ps => (if t = "" then "" else t ++ "\n\n") ++ concatPages ps

/-- Embedding of Python `int()` restricted to optionally signed decimal
strings surrounded by optional whitespace; anything else raises. -/
def pyInt (s : String) : Except String Int :=
  let l := stripList s.data
  let core : List Char → Except String Int := fun ds =>
    if ds = [] then Except.error ("invalid literal for int(): " ++ s)
    else if ds.all (fun c => c.isDigit) then
      Except.ok (Int.ofNat (ds.foldl (fun acc c => 10 * acc + (c.toNat - 48)) 0))
    else Except.error ("invalid literal for int(): " ++ s)
  match l with
  | '-' :: ds => (core ds).map (fun n => -n)
  | '+' :: ds => core ds
  | ds => core ds

/-- The port selection of the `__main__` block (`main.py` lines 46-49):
`int(os.getenv("PORT", 8000))`.  When `PORT` is unset, `os.getenv` returns
the default `8000` and `int(8000) = 8000`; when set, its value is parsed. -/
def serverPort (env : String → Option String) : Except String Int :=
  match env "PORT" with
  | none => Except.ok 8000
  | some s => pyInt s

/-- The bind address passed to `uvicorn.run` (`main.py` line 49). -/
def serverHost : String := "0.0.0.0"

/-! ## Helper lemmas -/

/-- Walking a list of successful pages accumulates exactly the spec's
concatenation behind the incoming accumulator. -/
theorem extractPages_map_ok (ps : List (Option String)) (acc : String) :
    extractPages (ps.map Except.ok) acc = Except.ok (acc ++ concatPages ps) := by
  induction ps generalizing acc with
  | nil => simp [extractPages, concatPages]
  | cons p ps ih =>
    cases p with
    | none => simp [extractPages, concatPages, ih]
    | some t =>
      by_cases ht : t = ""
      · subst ht; simp [extractPages, concatPages, ih]
      · simp [extractPages, concatPages, ht, ih, String.append_assoc]

/-- A failing page aborts the loop with its error, whatever came before. -/
theorem extractPages_error (pre : List (Except String (Option String)))
    (e : String) (post : List (Except String (Option String))) :
    ∀ acc : String, (∀ x ∈ pre, ∃ t, x = Except.ok t) →
      extractPages (pre ++ Except.error e :: post) acc = Except.error e := by
  induction pre with
  | nil => intro acc _; simp [extractPages]
  | cons x pre ih =>
    intro acc hpre
    obtain ⟨t, rfl⟩ := hpre x (List.mem_cons_self x pre)
    have hpre' : ∀ y ∈ pre, ∃ t, y = Except.ok t := fun y hy =>
      hpre y (List.mem_cons_of_mem _ hy)
    cases t with
    | none => simpa [extractPages] using ih acc hpre'
    | some t =>
      by_cases ht : t = "" <;>
        simp [extractPages, ht, ih _ hpre']

/-- An element that fails the predicate survives `dropWhile`. -/
theorem mem_dropWhile_of_not {α : Type} (p : α → Bool) (l : List α) (c : α)
    (hc : c ∈ l) (hp : ¬ p c = true) : c ∈ l.dropWhile p := by
  have := List.takeWhile_append_dropWhile (p := p) (l := l)
  rw [← this] at hc
  rcases List.mem_append.mp hc with h | h
  · exact absurd (List.mem_takeWhile_imp h) hp
  · exact h

/-- Stripping keeps any non-whitespace character, so the result is
non-empty. -/
theorem stripList_ne_nil (l : List Char) (c : Char) (hc : c ∈ l)
    (hw : ¬ isPySpace c = true) : stripList l ≠ [] := by
  intro h
  have h1 : c ∈ l.dropWhile isPySpace := mem_dropWhile_of_not _ _ _ hc hw
  have h2 : c ∈ (l.dropWhile isPySpace).reverse := List.mem_reverse.mpr h1
  have h3 : c ∈ (l.dropWhile isPySpace).reverse.dropWhile isPySpace :=
    mem_dropWhile_of_not _ _ _ h2 hw
  have h4 : (l.dropWhile isPySpace).reverse.dropWhile isPySpace = [] := by
    simpa [stripList] using congrArg List.reverse h
  simp [h4] at h3

/-- Stripping an all-whitespace list leaves nothing. -/
theorem stripList_eq_nil (l : List Char) (h : ∀ c ∈ l, isPySpace c = true) :
    stripList l = [] := by
  unfold stripList
  have h1 : l.dropWhile isPySpace = [] := List.dropWhile_eq_nil_iff.mpr h
  simp [h1]

/-- `pyStrip` in terms of the character list. -/
theorem pyStrip_eq_empty_iff (s : String) : pyStrip s = "" ↔ stripList s.data = [] := by
  constructor
  · intro h
    have := congrArg String.data h
    simpa [pyStrip] using this
  · intro h
    simp [pyStrip, h]

/-- The empty string has no characters. -/
theorem data_empty : ("" : String).data = [] := rfl

/-- If some page's text holds a character, so does the concatenation. -/
theorem mem_data_concatPages (ps : List (Option String)) (t : String) (c : Char)
    (ht : some t ∈ ps) (hc : c ∈ t.data) : c ∈ (concatPages ps).data := by
  induction ps with
  | nil => simp at ht
  | cons p ps ih =>
    rcases List.mem_cons.mp ht with h | h
    · have hp : p = some t := h.symm
      subst hp
      have htne : ¬ t = "" := by
        intro h'
        rw [h', data_empty] at hc
        simp at hc
      have hcp : concatPages (some t :: ps) = (t ++ "\n\n") ++ concatPages ps := by
        simp [concatPages, htne]
      rw [hcp, String.data_append, String.data_append]
      exact List.mem_append.mpr (Or.inl (List.mem_append.mpr (Or.inl hc)))
    · cases p with
      | none => simpa [concatPages] using ih h
      | some t' =>
        by_cases ht' : t' = "" <;>
          simp [concatPages, ht', String.data_append, List.mem_append, ih h,
            String.empty_append]

/-- If every page's text is all whitespace, so is the concatenation
(the separator newlines are whitespace as well). -/
theorem concatPages_data_space (ps : List (Option String))
    (h : ∀ p ∈ ps, ∀ c ∈ (p.getD "").data, isPySpace c = true) :
    ∀ c ∈ (concatPages ps).data, isPySpace c = true := by
  induction ps with
  | nil => intro c hc; rw [concatPages, data_empty] at hc; simp at hc
  | cons p ps ih =>
    have hps : ∀ p ∈ ps, ∀ c ∈ (p.getD "").data, isPySpace c = true := fun q hq =>
      h q (List.mem_cons_of_mem _ hq)
    intro c hc
    cases p with
    | none => exact ih hps c (by simpa [concatPages] using hc)
    | some t =>
      by_cases ht : t = ""
      · exact ih hps c (by simpa [concatPages, ht, String.empty_append] using hc)
      · rw [concatPages, if_neg ht, String.data_append, String.data_append] at hc
        rcases List.mem_append.mp hc with h1 | h2
        · rcases List.mem_append.mp h1 with h3 | h4
          · exact h (some t) (List.mem_cons_self _ _) c h3
          · have : c = '\n' := by simpa using h4
            rw [this]; rfl
        · exact ih hps c h2

/-- A handler run over successfully parsed pages whose concatenation is
all whitespace takes the placeholder branch. -/
theorem placeholder_of_all_space (ps : List (Option String)) (fn : String) (n : Nat)
    (h : ∀ c ∈ (concatPages ps).data, isPySpace c = true) :
    extract_text (Except.ok (ps.map Except.ok)) fn n =
      ExtractionResult.Success (placeholder fn n) := by
  have hE : extractPages (ps.map Except.ok) "" = Except.ok (concatPages ps) := by
    rw [extractPages_map_ok, String.empty_append]
  have hs : pyStrip (concatPages ps) = "" :=
    (pyStrip_eq_empty_iff _).mpr (stripList_eq_nil _ h)
  simp [extract_text, hE, hs]

/-- The rendered hundredths of a kibibyte are within half a hundredth of
the exact value `byteLength/1024`: the formatted size is the two-decimal
rounding of the exact ratio. -/
theorem sizeHundredths_close (n : Nat) :
    2 * ((256 : ℤ) * sizeHundredths n - 25 * n).natAbs ≤ 256 := by
  unfold sizeHundredths roundHalfEven
  split_ifs <;> omega

/-! ## Claims -/

/-- C1 (counterexample): a single page whose extracted text is the
non-empty string consisting of one space satisfies the claim's hypothesis,
yet the handler does not return the concatenation of the page texts — the
whitespace-only accumulation fails the strip check and the placeholder is
returned instead. -/
theorem claim_C1_counterexample :
    (" " : String) ≠ "" ∧
    extract_text (Except.ok [Except.ok (some " ")]) "scan.pdf" 1024 ≠
      ExtractionResult.Success (concatPages [some " "]) := by
  constructor
  · decide
  · decide

/-- C1 (amended): for every successfully parsed PDF with at least one page
whose extracted text contains a non-whitespace character, the result text
equals the concatenation, in original document order, of each page's
non-empty extracted text each followed by exactly two newline characters,
pages with empty or absent text contributing nothing. -/
theorem claim_C1 (ps : List (Option String)) (fn : String) (n : Nat)
    (h : ∃ t, some t ∈ ps ∧ ∃ c ∈ t.data, ¬ isPySpace c = true) :
    extract_text (Except.ok (ps.map Except.ok)) fn n =
      ExtractionResult.Success (concatPages ps) := by
  obtain ⟨t, hmem, c, hc, hw⟩ := h
  have hE : extractPages (ps.map Except.ok) "" = Except.ok (concatPages ps) := by
    rw [extractPages_map_ok, String.empty_append]
  have hcc : c ∈ (concatPages ps).data := mem_data_concatPages ps t c hmem hc
  have hns : pyStrip (concatPages ps) ≠ "" := by
    intro hcon
    exact stripList_ne_nil _ c hcc hw ((pyStrip_eq_empty_iff _).mp hcon)
  simp [extract_text, hE, hns]

/-- C1 witness: a one-page PDF with text "Hello" yields that text followed
by two newlines. -/
theorem claim_C1_witness :
    extract_text (Except.ok ([some "Hello"].map Except.ok)) "a.pdf" 5 =
      ExtractionResult.Success (concatPages [some "Hello"]) :=
  claim_C1 [some "Hello"] "a.pdf" 5 ⟨"Hello", by decide, 'H', by decide, by decide⟩

/-- C2: a parse failure — whether from opening the document or from any
page mid-loop after any run of successful pages — is caught and returned
as `Failure` carrying exactly the error's textual description: no partial
accumulated text is returned. -/
theorem claim_C2 (e fn : String) (n : Nat)
    (pre post : List (Except String (Option String)))
    (hpre : ∀ x ∈ pre, ∃ t, x = Except.ok t) :
    extract_text (Except.error e) fn n = ExtractionResult.Failure e ∧
    extract_text (Except.ok (pre ++ Except.error e :: post)) fn n =
      ExtractionResult.Failure e := by
  refine ⟨rfl, ?_⟩
  simp [extract_text, extractPages_error pre e post "" hpre]

/-- C2 witness: a failure on the second page, after a first page that did
yield text, discards the partial text and returns the failure. -/
theorem claim_C2_witness :
    extract_text (Except.error "bad xref") "f.pdf" 3 =
      ExtractionResult.Failure "bad xref" ∧
    extract_text (Except.ok ([Except.ok (some "partial")] ++
        Except.error "bad xref" :: [])) "f.pdf" 3 =
      ExtractionResult.Failure "bad xref" :=
  claim_C2 "bad xref" "f.pdf" 3 [Except.ok (some "partial")] []
    (fun x hx => ⟨some "partial", by simpa using hx⟩)

/-- C3: when every page yields empty or absent text the handler returns
`Success` with the placeholder message built from the literal filename and
the formatted size, and the rendered hundredths of a kibibyte are the
two-decimal rounding of `byteLength/1024` (within half a hundredth of the
exact ratio). -/
theorem claim_C3 (ps : List (Option String)) (fn : String) (n : Nat)
    (h : ∀ p ∈ ps, p = none ∨ p = some "") :
    extract_text (Except.ok (ps.map Except.ok)) fn n =
      ExtractionResult.Success (placeholder fn n) ∧
    2 * ((256 : ℤ) * sizeHundredths n - 25 * n).natAbs ≤ 256 := by
  refine ⟨?_, sizeHundredths_close n⟩
  apply placeholder_of_all_space
  apply concatPages_data_space
  intro p hp
  rcases h p hp with h1 | h1 <;> subst h1 <;> intro c hc <;>
    rw [Option.getD] at hc <;> rw [data_empty] at hc <;> simp at hc

/-- C3 witness: a two-page PDF with one absent and one empty text, 1000
bytes long. -/
theorem claim_C3_witness :
    extract_text (Except.ok ([none, some ""].map Except.ok)) "img.pdf" 1000 =
      ExtractionResult.Success (placeholder "img.pdf" 1000) ∧
    2 * ((256 : ℤ) * sizeHundredths 1000 - 25 * 1000).natAbs ≤ 256 :=
  claim_C3 [none, some ""] "img.pdf" 1000 (by decide)

/-- C4: whenever the page loop succeeds and the accumulated text is
non-empty after stripping, the handler returns `Success` with the full
untrimmed accumulated text — the stripped copy is only tested, never
returned. -/
theorem claim_C4 (pages : List (Except String (Option String))) (fn : String)
    (n : Nat) (text : String) (h1 : extractPages pages "" = Except.ok text)
    (h2 : pyStrip text ≠ "") :
    extract_text (Except.ok pages) fn n = ExtractionResult.Success text := by
  simp [extract_text, h1, h2]

/-- C4 witness: a page with text " Hi" returns the untrimmed " Hi\n\n". -/
theorem claim_C4_witness :
    extract_text (Except.ok [Except.ok (some " Hi")]) "a.pdf" 4 =
      ExtractionResult.Success (" Hi" ++ "\n\n") :=
  claim_C4 [Except.ok (some " Hi")] "a.pdf" 4 (" Hi" ++ "\n\n") rfl (by decide)

/-- C5: a valid PDF with zero pages is treated identically to the
no-text-extracted case: `Success` carrying the placeholder message. -/
theorem claim_C5 (fn : String) (n : Nat) :
    extract_text (Except.ok []) fn n = ExtractionResult.Success (placeholder fn n) := rfl

/-- C6: whenever the parsing capability rejects the input bytes with a
non-empty message — per its contract it does so on every byte sequence
that is not a valid PDF, including zero-byte and single-byte inputs — the
handler does not crash and returns a well-formed `Failure` with a
non-empty error message. -/
theorem claim_C6 (parseFn : List Nat → Except String (List (Except String (Option String))))
    (bytes : List Nat) (fn e : String)
    (hfail : parseFn bytes = Except.error e) (hne : e ≠ "") :
    ∃ msg, handle parseFn bytes fn = ExtractionResult.Failure msg ∧ msg ≠ "" :=
  ⟨e, by simp [handle, extract_text, hfail], hne⟩

/-- C6 witness: a zero-byte upload under a parser that rejects it. -/
theorem claim_C6_witness :
    ∃ msg, handle (fun _ => Except.error "Is this really a PDF?") [] "empty.pdf" =
      ExtractionResult.Failure msg ∧ msg ≠ "" :=
  claim_C6 (fun _ => Except.error "Is this really a PDF?") [] "empty.pdf"
    "Is this really a PDF?" rfl (by decide)

/-- C7: the handler is a pure function of the file bytes and the filename:
two invocations with identical inputs yield identical results (the parsing
capability itself is a pure function of the bytes, per the spec). -/
theorem claim_C7 (parseFn : List Nat → Except String (List (Except String (Option String))))
    (b1 b2 : List Nat) (f1 f2 : String) (hb : b1 = b2) (hf : f1 = f2) :
    handle parseFn b1 f1 = handle parseFn b2 f2 := by rw [hb, hf]

/-- C7 witness: two identical invocations on a concrete input agree. -/
theorem claim_C7_witness :
    handle (fun _ => Except.ok [Except.ok (some "x")]) [37, 80] "d.pdf" =
      handle (fun _ => Except.ok [Except.ok (some "x")]) [37, 80] "d.pdf" :=
  claim_C7 (fun _ => Except.ok [Except.ok (some "x")]) [37, 80] [37, 80]
    "d.pdf" "d.pdf" rfl rfl

/-- C8: the listening port is selected by the single environment variable
`PORT` alone, equals 8000 when it is unset, and the bind address is fixed
to all interfaces. -/
theorem claim_C8 :
    (∀ env : String → Option String, env "PORT" = none →
      serverPort env = Except.ok 8000) ∧
    serverHost = "0.0.0.0" ∧
    (∀ env1 env2 : String → Option String, env1 "PORT" = env2 "PORT" →
      serverPort env1 = serverPort env2) := by
  refine ⟨fun env h => by simp [serverPort, h], rfl, fun env1 env2 h => by
    simp [serverPort, h]⟩

/-- C8 witness: an environment with `PORT` unset selects port 8000. -/
theorem claim_C8_witness : serverPort (fun _ => none) = Except.ok 8000 :=
  claim_C8.1 (fun _ => none) rfl

/-- C9: when every page's extracted text is empty, absent or consists
solely of whitespace characters, the handler returns the placeholder
`Success`: non-empty extracted text on a page is not sufficient for that
text to appear in the result. -/
theorem claim_C9 (ps : List (Option String)) (fn : String) (n : Nat)
    (h : ∀ p ∈ ps, ∀ c ∈ (p.getD "").data, isPySpace c = true) :
    extract_text (Except.ok (ps.map Except.ok)) fn n =
      ExtractionResult.Success (placeholder fn n) :=
  placeholder_of_all_space ps fn n (concatPages_data_space ps h)

/-- C9 witness: pages with a lone space, an absent text, and a text made
of a no-break space and a file separator — all non-empty or absent, and
all stripped away by Python — still yield the placeholder. -/
theorem claim_C9_witness :
    extract_text (Except.ok ([some " ", none, some "\u00A0\u001C"].map Except.ok))
        "scan.pdf" 100 =
      ExtractionResult.Success (placeholder "scan.pdf" 100) :=
  claim_C9 [some " ", none, some "\u00A0\u001C"] "scan.pdf" 100 (by decide)

/-- The runs of the handler in which the placeholder branch is not taken:
the parse fails, a page fails, or the accumulated text survives the strip
check. -/
def nonPlaceholderCase
    (parseResult : Except String (List (Except String (Option String)))) : Prop :=
  match parseResult with
  | Except.error _ => True
  | Except.ok pages =>
      match extractPages pages "" with
      | Except.error _ => True
      | Except.ok t => pyStrip t ≠ ""

/-- C10: for a fixed byte sequence, the result is independent of the
filename whenever non-whitespace text is extracted or parsing fails: the
filename influences only the placeholder branch (and log lines). -/
theorem claim_C10 (parseFn : List Nat → Except String (List (Except String (Option String))))
    (bytes : List Nat) (f1 f2 : String) (h : nonPlaceholderCase (parseFn bytes)) :
    handle parseFn bytes f1 = handle parseFn bytes f2 := by
  unfold handle
  cases hp : parseFn bytes with
  | error e => rfl
  | ok pages =>
    rw [hp] at h
    have h2 : (match extractPages pages "" with
        | Except.error _ => True
        | Except.ok t => pyStrip t ≠ "") := h
    cases hE : extractPages pages "" with
    | error e => simp [extract_text, hE]
    | ok t =>
      rw [hE] at h2
      have h3 : pyStrip t ≠ "" := h2
      simp [extract_text, hE, h3]

/-- C10 witness: two different filenames over the same bytes, where the
extracted text is non-whitespace, give the same result. -/
theorem claim_C10_witness :
    handle (fun _ => Except.ok [Except.ok (some "body")]) [1, 2] "a.pdf" =
      handle (fun _ => Except.ok [Except.ok (some "body")]) [1, 2] "b.pdf" :=
  claim_C10 (fun _ => Except.ok [Except.ok (some "body")]) [1, 2] "a.pdf" "b.pdf"
    (by show pyStrip ("" ++ "body" ++ "\n\n") ≠ ""
        decide)
